import Mathlib

/-!
# Meal-planner logic: a shallow embedding

This file embeds the planning-domain logic of the meal-planner application
(date-range utility, meal-plan resolver, meal-entry aggregator, ingredient
scaler, recipe-step editing) as executable Lean definitions, translated
from the TypeScript source, and proves the specification's claims about it.

Embedding conventions:
* A JavaScript `Date` used purely for calendar-day arithmetic is embedded
  as an integer epoch-day count (days since 1970-01-01).  `setDate`
  arithmetic on such dates is integer addition of days, and `getDay` is
  `(d + 4) % 7` since 1970-01-01 was a Thursday (weekday 4); Lean's `%` on
  `Int` is Euclidean, matching the 0..6 range of `getDay`.
* JavaScript numbers are embedded as `ℚ` (exact arithmetic; JS floats do
  not truncate integer-valued intermediate results in the ranges at play).
  A division whose JS result is non-finite (`Infinity`/`NaN`, i.e. zero
  divisor) is represented as `none` in an `Option ℚ` result.
* Opaque row ids generated by the store are embedded as `Nat` drawn from a
  fresh-id counter; user ids stay `String`.
-/

namespace MealPlanner

/-- JS `date.getDay()` on an epoch-day integer: weekday with 0 = Sunday.
1970-01-01 (epoch day 0) was a Thursday, weekday 4. -/
def jsGetDay (d : ℤ) : ℤ := (d + 4) % 7

/-- Source `getWeekDates` (week planner screen): copies the input date, rewinds it
to the Sunday of its week via `setDate(date.getDate() - date.getDay())`,
then pushes that Sunday plus 0..6 days.  On epoch days the `setDate` calls
are plain day addition. -/
def getWeekDates (d : ℤ) : List ℤ :=
  (List.range 7).map (fun i => (d - jsGetDay d) + (i : ℤ))

/-- Civil date (year, month 1..12, day 1..31) to epoch day, used only to
name concrete calendar dates in examples; standard days-from-civil
computation (all divisions hit non-negative operands for CE dates). -/
def daysFromCivil (y m d : ℤ) : ℤ :=
  let yAdj : ℤ := if m ≤ 2 then y - 1 else y
  let era : ℤ := (if 0 ≤ yAdj then yAdj else yAdj - 399) / 400
  let yoe : ℤ := yAdj - era * 400
  let mp : ℤ := if 2 < m then m - 3 else m + 9
  let doy : ℤ := (153 * mp + 2) / 5 + d - 1
  let doe : ℤ := yoe * 365 + yoe / 4 - yoe / 100 + doy
  era * 146097 + doe - 719468

/-! ## Ingredient scaler (recipe detail screen) -/

/-- JS division on finite operands: `none` stands for the non-finite
`Infinity`/`NaN` a zero divisor produces. -/
def jsDiv (a b : ℚ) : Option ℚ := if b = 0 then none else some (a / b)

/-- Source `scaleIngredient` (recipe detail screen): returns
`(quantity * servings) / recipe.servings` where `servings` is the target
serving count chosen in the UI and `recipe.servings` the recipe's base
serving count.  (The screen's `if (!recipe) return quantity` guard handles
the not-yet-loaded component state, not the scaling arguments, and is
outside the arithmetic modelled here.)  The function raises no error. -/
def scaleIngredient (quantity servings recipeServings : ℚ) : Option ℚ :=
  jsDiv (quantity * servings) recipeServings

/-! ## Meal-plan resolver (planner screens) -/

/-- A row of the `meal_plans` table, dates as epoch days. -/
structure MealPlan where
  id : Nat
  user_id : String
  name : String
  start_date : ℤ
  end_date : ℤ
deriving DecidableEq, Repr

/-- The `meal_plans` rows visible to the client plus the store's fresh-id
supply (generated row ids embedded as successive naturals). -/
structure PlanStore where
  plans : List MealPlan
  nextId : Nat
deriving DecidableEq, Repr

/-- The supabase-js `.maybeSingle()` postfix: `null` data on zero rows,
the row on exactly one, and an error (hence `null` data, since the call
sites destructure only `data`) on more than one row. -/
def maybeSingle {α : Type} (rows : List α) : Option α :=
  match rows with
  | [p] => some p
  | _ => none

/-- The resolver's select: plans of `uid` whose inclusive
`[start_date, end_date]` window contains `date`
(`.eq('user_id', …).lte('start_date', date).gte('end_date', date)`). -/
def selectPlanCovering (s : PlanStore) (uid : String) (date : ℤ) : List MealPlan :=
  s.plans.filter (fun p => p.user_id == uid && decide (p.start_date ≤ date)
    && decide (date ≤ p.end_date))

/-- The row the resolver's `.insert({...})` call sends when no covering plan
was found: `start_date = date`, `end_date = date + 7` days (the source
builds the end date with `setDate(getDate() + 7)`), id drawn from the
store's fresh-id supply, label embedding the date. -/
def newPlanRow (s : PlanStore) (uid : String) (date : ℤ) : MealPlan :=
  { id := s.nextId
    user_id := uid
    name := "Meal Plan " ++ toString date
    start_date := date
    end_date := date + 7 }

/-- Source `getOrCreateMealPlan(userId, date)` (week planner screen; the day
planner's `getOrCreateTodayMealPlan` is the same logic specialised to
today's date): `null` when no user id; otherwise return the id of the
single plan covering the date, or insert a fresh plan with
`start_date = date` and `end_date = date + 7` days and return its id.
The generated label embeds the date (`Meal Plan <date>`; the source
formats it with `toLocaleDateString`). -/
def getOrCreateMealPlan (s : PlanStore) (userId : Option String) (date : ℤ) :
    Option Nat × PlanStore :=
  match userId with
  | none => (none, s)
  | some uid =>
    match maybeSingle (selectPlanCovering s uid date) with
    | some existingPlan => (some existingPlan.id, s)
    | none =>
      (some (newPlanRow s uid date).id,
        { plans := s.plans ++ [newPlanRow s uid date], nextId := s.nextId + 1 })

/-! ## Meal-entry aggregation (planner screens) -/

/-- The `recipes(title, calories_per_serving)` join payload. -/
structure RecipeInfo where
  title : String
  calories_per_serving : ℚ
deriving DecidableEq, Repr

/-- A `meal_plan_entries` row as the planner screens hold it, with the
optional joined recipe (`none` when the recipe reference is missing). -/
structure MealEntry where
  id : Nat
  meal_type : String
  recipe_id : Option Nat
  servings : ℚ
  meal_date : ℤ
  recipes : Option RecipeInfo
deriving DecidableEq, Repr

/-- The meal-type tags of the screens' fixed `mealTypes` table (each entry
also carries an emoji and a display title, irrelevant here). -/
def mealTypeTags : List String := ["breakfast", "lunch", "dinner", "snack"]

/-- Source `getMealsByType`: filters the day's entries (`meals`, or
`weekMeals[date] || []` in week view) down to one meal-type tag. -/
def getMealsByType (meals : List MealEntry) (type : String) : List MealEntry :=
  meals.filter (fun meal => meal.meal_type == type)

/-- The per-entry contribution inside `getDayCalories`:
`(meal.recipes?.calories_per_serving || 0) * meal.servings` — a missing
joined recipe reads as `undefined`, which `|| 0` turns into 0. -/
def entryCalories (meal : MealEntry) : ℚ :=
  ((meal.recipes.map (fun r => r.calories_per_serving)).getD 0) * meal.servings

/-- Source `getDayCalories`: `reduce` over the day's entries accumulating
`total + (recipes?.calories_per_serving || 0) * servings` from 0. -/
def getDayCalories (dayMeals : List MealEntry) : ℚ :=
  dayMeals.foldl (fun total meal => total + entryCalories meal) 0

/-! ## Recipe-step editing (create-recipe screen) -/

/-- A step row of the recipe form: 1-based ordinal plus instruction. -/
structure RecipeStep where
  step_number : Nat
  instruction : String
deriving DecidableEq, Repr

/-- Source `addStep`: appends `{ step_number: steps.length + 1, instruction: '' }`. -/
def addStep (steps : List RecipeStep) : List RecipeStep :=
  steps ++ [{ step_number := steps.length + 1, instruction := "" }]

/-- Source `removeStep(index)`: `filter((_, i) => i !== index)` then
`map((step, i) => ({ ...step, step_number: i + 1 }))`. -/
def removeStep (steps : List RecipeStep) (index : Nat) : List RecipeStep :=
  ((steps.enum.filter (fun p => p.1 != index)).map Prod.snd).mapIdx
    (fun i step => { step with step_number := i + 1 })

/-- The renumbering invariant: the i-th step carries ordinal i + 1. -/
def stepsContiguous (steps : List RecipeStep) : Prop :=
  ∀ i : Fin steps.length, (steps.get i).step_number = (i : ℕ) + 1

/-! ## Add-meal serving count (planner screens) -/

/-- JS `parseInt(s)` restricted to base-10 inputs as the servings field
produces them: skip leading spaces, optional sign, then the maximal digit
prefix; `none` is `NaN` (no digits). -/
def parseIntJS (s : String) : Option ℤ :=
  let cs := s.data.dropWhile (fun c => c = ' ')
  let signed : ℤ × List Char :=
    match cs with
    | '-' :: t => (-1, t)
    | '+' :: t => (1, t)
    | t => (1, t)
  let digits := signed.2.takeWhile Char.isDigit
  if digits.isEmpty then none
  else some (signed.1 * ((digits.foldl (fun n c => n * 10 + (c.toNat - 48)) 0 : ℕ) : ℤ))

/-- JS `x || d` on a parsed number: `NaN` (`none`) and 0 are falsy. -/
def jsOrNum (x : Option ℤ) (d : ℤ) : ℤ :=
  match x with
  | none => d
  | some n => if n = 0 then d else n

/-- The serving multiplier `handleAddMeal` sends to the store:
`parseInt(servings) || 1` on the servings text field. -/
def handleAddMealServings (servingsText : String) : ℤ :=
  jsOrNum (parseIntJS servingsText) 1

/-! ## Helper lemmas -/

/-- Sanity check of the civil-date encoding: the epoch itself. -/
example : daysFromCivil 1970 1 1 = 0 := by decide

/-- Sanity check: 2024-02-29 was a Thursday (weekday 4). -/
example : jsGetDay (daysFromCivil 2024 2 29) = 4 := by decide

/-- When the select finds no single covering plan, the resolver inserts
`newPlanRow` and hands back its id together with the grown store. -/
theorem getOrCreate_creates (s : PlanStore) (uid : String) (d : ℤ)
    (h : maybeSingle (selectPlanCovering s uid d) = none) :
    getOrCreateMealPlan s (some uid) d =
      (some s.nextId,
        { plans := s.plans ++ [newPlanRow s uid d], nextId := s.nextId + 1 }) := by
  simp [getOrCreateMealPlan, h, newPlanRow]

/-- When the select finds exactly one covering plan, the resolver returns
its id and leaves the store unchanged. -/
theorem getOrCreate_found (s : PlanStore) (uid : String) (d : ℤ) (p : MealPlan)
    (h : maybeSingle (selectPlanCovering s uid d) = some p) :
    getOrCreateMealPlan s (some uid) d = (some p.id, s) := by
  simp [getOrCreateMealPlan, h]

/-- Unfolding the calorie `reduce` into a mapped sum. -/
theorem foldl_entryCalories (l : List MealEntry) (a : ℚ) :
    l.foldl (fun total meal => total + entryCalories meal) a =
      a + (l.map entryCalories).sum := by
  induction l generalizing a with
  | nil => simp
  | cons x xs ih => simp [List.foldl_cons, ih, add_assoc]

/-- Membership in a meal-type group is membership in the input with the
matching tag. -/
theorem mem_getMealsByType (meals : List MealEntry) (t : String) (m : MealEntry) :
    m ∈ getMealsByType meals t ↔ m ∈ meals ∧ m.meal_type = t := by
  simp [getMealsByType]

/-- Renumbering with `map((step, i) => ({ ...step, step_number: i + 1 }))`
always yields contiguous ordinals, whatever list it is applied to. -/
theorem mapIdx_renumber_contiguous (l : List RecipeStep) :
    stepsContiguous (l.mapIdx (fun i step => { step with step_number := i + 1 })) := by
  intro i
  have h := i.isLt
  simp [List.get_eq_getElem, List.getElem_mapIdx]

/-! ## The claims -/

/-- Claim C1, counterexample: on an empty store, resolving user `u` at
epoch day 0 creates a plan whose `end_date` is day 7, not day 6 as the
claim's `date + 6 days` window would require. -/
theorem createdPlan_windowIsSevenNotSix :
    ((getOrCreateMealPlan { plans := [], nextId := 0 } (some "u") 0).2.plans.map
      MealPlan.end_date = [7]) ∧ ¬ ((7 : ℤ) = 0 + 6) := by
  constructor
  · rfl
  · decide

/-- Claim C1 (amended): whenever `getOrCreateMealPlan` finds no existing
plan covering the date, the plan it appends to the store has
`start_date = date` and `end_date = date + 7` days (an inclusive 8-day
window), and its id is the one returned. -/
theorem createdPlan_window (s : PlanStore) (uid : String) (d : ℤ)
    (hnone : maybeSingle (selectPlanCovering s uid d) = none) :
    ∃ p : MealPlan,
      (getOrCreateMealPlan s (some uid) d).1 = some p.id ∧
      (getOrCreateMealPlan s (some uid) d).2.plans = s.plans ++ [p] ∧
      p.start_date = d ∧ p.end_date = d + 7 := by
  refine ⟨newPlanRow s uid d, ?_, ?_, rfl, rfl⟩ <;>
    (rw [getOrCreate_creates s uid d hnone]; try rfl)

/-- Witness for `createdPlan_window` at the empty store, user `u`, day 0. -/
theorem createdPlan_window_witness :
    ∃ p : MealPlan,
      (getOrCreateMealPlan { plans := [], nextId := 0 } (some "u") 0).1 = some p.id ∧
      (getOrCreateMealPlan { plans := [], nextId := 0 } (some "u") 0).2.plans =
        ([] : List MealPlan) ++ [p] ∧
      p.start_date = 0 ∧ p.end_date = 0 + 7 :=
  createdPlan_window { plans := [], nextId := 0 } "u" 0 (by rfl)

/-- Claim C2: at `quantity = 1`, `targetServings = 2`, `baseServings = 0`
the scaler produces the non-finite JS value (`none` in this embedding)
instead of failing with `InvalidArgument` — the function has no error
channel at all, confirming the defect the specification flags. -/
theorem scaleIngredient_zeroBase_noError : scaleIngredient 1 2 0 = none := by
  decide

/-- Claim C3, counterexample: with no user id the resolver returns the
null id and the untouched store — a normal, non-error result — rather
than failing with `NotAuthenticated`. -/
theorem resolvePlan_noUser_example :
    getOrCreateMealPlan { plans := [], nextId := 0 } none 0 =
      (none, { plans := [], nextId := 0 }) := rfl

/-- Claim C3 (amended): for every store and date, `getOrCreateMealPlan`
with no user id returns a null plan id and leaves the store unchanged; no
error is raised. -/
theorem resolvePlan_noUser_returnsNull (s : PlanStore) (d : ℤ) :
    getOrCreateMealPlan s none d = (none, s) := rfl

/-- Claim C4: the day-calorie total is the sum over all entries of the
joined recipe's calories-per-serving times the entry's servings (exact
`ℚ` arithmetic, nothing truncated), and an entry whose recipe reference
is missing contributes 0: deleting it from anywhere in the list leaves
the total unchanged, with no error raised. -/
theorem getDayCalories_sum :
    (∀ dayMeals : List MealEntry,
      getDayCalories dayMeals = (dayMeals.map entryCalories).sum) ∧
    (∀ (l1 l2 : List MealEntry) (m : MealEntry), m.recipes = none →
      getDayCalories (l1 ++ m :: l2) = getDayCalories (l1 ++ l2)) := by
  constructor
  · intro l
    simpa using foldl_entryCalories l 0
  · intro l1 l2 m hm
    simp [getDayCalories, foldl_entryCalories, entryCalories, hm]

/-- Witness for `getDayCalories_sum` on a concrete lunch entry (100 kcal
per serving, 3 servings) and a dangling entry with no joined recipe. -/
theorem getDayCalories_sum_witness :
    getDayCalories [⟨1, "lunch", some 5, 3, 0, some ⟨"Soup", 100⟩⟩] =
      (List.map entryCalories [⟨1, "lunch", some 5, 3, 0, some ⟨"Soup", 100⟩⟩]).sum ∧
    getDayCalories
        ([⟨1, "lunch", some 5, 3, 0, some ⟨"Soup", 100⟩⟩] ++
          (⟨0, "breakfast", none, 2, 0, none⟩ : MealEntry) :: []) =
      getDayCalories ([⟨1, "lunch", some 5, 3, 0, some ⟨"Soup", 100⟩⟩] ++ []) :=
  ⟨getDayCalories_sum.1 _, getDayCalories_sum.2 _ [] _ rfl⟩

/-- Claim C5: two sequential calls of the resolver with the same user and
date, where the first call created a plan (no plan of that user covered
the date before), return the same plan id — the second call finds exactly
the plan the first one created, whose window contains the date. -/
theorem resolvePlan_sequential_sameId (s : PlanStore) (uid : String) (d : ℤ)
    (hfresh : selectPlanCovering s uid d = []) :
    (getOrCreateMealPlan s (some uid) d).1 =
      (getOrCreateMealPlan (getOrCreateMealPlan s (some uid) d).2 (some uid) d).1 ∧
    (getOrCreateMealPlan s (some uid) d).1 = some s.nextId := by
  have h1 : maybeSingle (selectPlanCovering s uid d) = none := by rw [hfresh]; rfl
  have e1 := getOrCreate_creates s uid d h1
  rw [e1]
  have hfresh' : List.filter (fun p => p.user_id == uid && decide (p.start_date ≤ d)
      && decide (d ≤ p.end_date)) s.plans = [] := hfresh
  have hd7 : d ≤ d + 7 := by omega
  have h2 : selectPlanCovering
      { plans := s.plans ++ [newPlanRow s uid d], nextId := s.nextId + 1 } uid d =
      [newPlanRow s uid d] := by
    simp [selectPlanCovering, List.filter_append, hfresh', newPlanRow, hd7]
  have h2' : maybeSingle (selectPlanCovering
      { plans := s.plans ++ [newPlanRow s uid d], nextId := s.nextId + 1 } uid d) =
      some (newPlanRow s uid d) := by rw [h2]; rfl
  rw [getOrCreate_found _ uid d _ h2']
  exact ⟨rfl, rfl⟩

/-- Witness for `resolvePlan_sequential_sameId` at the empty store. -/
theorem resolvePlan_sequential_sameId_witness :
    (getOrCreateMealPlan { plans := [], nextId := 0 } (some "u") 0).1 =
      (getOrCreateMealPlan
        (getOrCreateMealPlan { plans := [], nextId := 0 } (some "u") 0).2
        (some "u") 0).1 ∧
    (getOrCreateMealPlan { plans := [], nextId := 0 } (some "u") 0).1 = some 0 :=
  resolvePlan_sequential_sameId { plans := [], nextId := 0 } "u" 0 (by rfl)

/-- Claim C6: for every input date, `getWeekDates` returns exactly the 7
consecutive days starting at `d - weekday d`; that first day is a Sunday
(weekday 0) lying on or before the input, and the input falls inside the
returned week.  (Holds for every integer day, so in particular for a
Sunday input and for leap-day inputs such as 2024-02-29.) -/
theorem getWeekDates_sundayWeek (d : ℤ) :
    getWeekDates d =
      [d - jsGetDay d, d - jsGetDay d + 1, d - jsGetDay d + 2, d - jsGetDay d + 3,
        d - jsGetDay d + 4, d - jsGetDay d + 5, d - jsGetDay d + 6] ∧
    jsGetDay (d - jsGetDay d) = 0 ∧
    d - jsGetDay d ≤ d ∧ d ≤ (d - jsGetDay d) + 6 := by
  refine ⟨?_, ?_, ?_, ?_⟩
  · simp [getWeekDates, List.range_succ]
  · unfold jsGetDay; omega
  · unfold jsGetDay; omega
  · unfold jsGetDay; omega

/-- Leap-day spot check: the week of 2024-02-29 runs from Sunday
2024-02-25 through Saturday 2024-03-02. -/
example :
    getWeekDates (daysFromCivil 2024 2 29) =
      [daysFromCivil 2024 2 25, daysFromCivil 2024 2 26, daysFromCivil 2024 2 27,
        daysFromCivil 2024 2 28, daysFromCivil 2024 2 29, daysFromCivil 2024 3 1,
        daysFromCivil 2024 3 2] := by decide

/-- Sunday-input spot check: a Sunday starts its own week. -/
example :
    getWeekDates (daysFromCivil 2024 2 25) =
      [daysFromCivil 2024 2 25, daysFromCivil 2024 2 26, daysFromCivil 2024 2 27,
        daysFromCivil 2024 2 28, daysFromCivil 2024 2 29, daysFromCivil 2024 3 1,
        daysFromCivil 2024 3 2] := by decide

/-- Claim C7: scaling with the target serving count equal to the recipe's
(positive) base serving count returns the original quantity unchanged —
the linear formula is exact, with no rounding inside the function. -/
theorem scaleIngredient_identity (q b : ℚ) (h : 0 < b) :
    scaleIngredient q b b = some q := by
  simp [scaleIngredient, jsDiv, h.ne']

/-- Witness for `scaleIngredient_identity`: 3 units at 2 of 2 servings. -/
theorem scaleIngredient_identity_witness : scaleIngredient 3 2 2 = some 3 :=
  scaleIngredient_identity 3 2 (by norm_num)

/-- Claim C8: `getMealsByType` partitions entries by meal-type tag — each
group is an order-preserving sublist of the input whose members are
exactly the input entries carrying that tag; an entry with a tag outside
the screen's fixed meal-type table lands in none of the displayed groups
(dropped without error); and on empty input every group is empty while
the calorie total is 0. -/
theorem getMealsByType_partition :
    (∀ (meals : List MealEntry) (t : String), (getMealsByType meals t).Sublist meals) ∧
    (∀ (meals : List MealEntry) (t : String) (m : MealEntry),
      m ∈ getMealsByType meals t ↔ m ∈ meals ∧ m.meal_type = t) ∧
    (∀ (meals : List MealEntry) (m : MealEntry), m.meal_type ∉ mealTypeTags →
      ∀ t ∈ mealTypeTags, m ∉ getMealsByType meals t) ∧
    (∀ t : String, getMealsByType [] t = []) ∧
    getDayCalories [] = 0 := by
  refine ⟨?_, ?_, ?_, ?_, rfl⟩
  · intro meals t
    exact List.filter_sublist meals
  · intro meals t m
    exact mem_getMealsByType meals t m
  · intro meals m hunk t ht hmem
    rcases (mem_getMealsByType meals t m).1 hmem with ⟨_, hty⟩
    rw [← hty] at ht
    exact hunk ht
  · intro t
    rfl

/-- Witness for `getMealsByType_partition`: one breakfast entry is its
own breakfast group, and a `brunch`-tagged entry joins no group. -/
theorem getMealsByType_partition_witness :
    ((⟨1, "breakfast", none, 1, 0, none⟩ : MealEntry) ∈
      getMealsByType [⟨1, "breakfast", none, 1, 0, none⟩] "breakfast" ↔
        (⟨1, "breakfast", none, 1, 0, none⟩ : MealEntry) ∈
          [(⟨1, "breakfast", none, 1, 0, none⟩ : MealEntry)] ∧
        (⟨1, "breakfast", none, 1, 0, none⟩ : MealEntry).meal_type = "breakfast") ∧
    (⟨2, "brunch", none, 1, 0, none⟩ : MealEntry) ∉
      getMealsByType [⟨2, "brunch", none, 1, 0, none⟩] "breakfast" :=
  ⟨getMealsByType_partition.2.1 _ "breakfast" _,
   getMealsByType_partition.2.2.1 _ _ (by decide) "breakfast" (by decide)⟩

/-- Claim C9: removing a step at any index renumbers the remaining steps
to contiguous ordinals 1, 2, …; appending a step assigns it ordinal
`length + 1`; hence the renumbering invariant survives every add or
remove performed by the editing screen. -/
theorem steps_renumber_invariant :
    (∀ (steps : List RecipeStep) (index : ℕ), stepsContiguous (removeStep steps index)) ∧
    (∀ steps : List RecipeStep, (addStep steps).map (fun s => s.step_number) =
      (steps.map fun s => s.step_number) ++ [steps.length + 1]) ∧
    (∀ steps : List RecipeStep, stepsContiguous steps → stepsContiguous (addStep steps)) := by
  refine ⟨?_, ?_, ?_⟩
  · intro steps index
    exact mapIdx_renumber_contiguous _
  · intro steps
    simp [addStep]
  · intro steps h i
    have hlt := i.isLt
    simp only [addStep, List.length_append, List.length_singleton] at hlt
    rcases Nat.lt_or_ge (i : ℕ) steps.length with hc | hc
    · have := h ⟨i, hc⟩
      simp only [addStep, List.get_eq_getElem, List.getElem_append_left hc] at *
      exact this
    · have heq : (i : ℕ) = steps.length := by omega
      simp [addStep, List.get_eq_getElem, heq]

/-- Witness for `steps_renumber_invariant`: removing the middle of three
steps leaves ordinals 1, 2; appending to a contiguous one-step list keeps
the invariant. -/
theorem steps_renumber_invariant_witness :
    stepsContiguous (removeStep [⟨1, "chop"⟩, ⟨2, "mix"⟩, ⟨3, "bake"⟩] 1) ∧
    stepsContiguous (addStep [⟨1, "chop"⟩]) :=
  ⟨steps_renumber_invariant.1 [⟨1, "chop"⟩, ⟨2, "mix"⟩, ⟨3, "bake"⟩] 1,
   steps_renumber_invariant.2.2 [⟨1, "chop"⟩] (by intro i; fin_cases i; rfl)⟩

/-- Claim C10: the serving multiplier the planner inserts is
`parseInt(servings) || 1` — a servings text that is non-numeric, empty,
or parses to 0 is stored as 1, while a strictly negative parse is stored
as-is, so positivity is not enforced at this interface. -/
theorem handleAddMealServings_spec (s : String) :
    (parseIntJS s = none ∨ parseIntJS s = some 0 → handleAddMealServings s = 1) ∧
    (∀ n : ℤ, parseIntJS s = some n → n < 0 → handleAddMealServings s = n) := by
  constructor
  · rintro (h | h) <;> simp [handleAddMealServings, h, jsOrNum]
  · intro n h hn
    simp [handleAddMealServings, h, jsOrNum, hn.ne]

/-- Witness for `handleAddMealServings_spec`: the empty string and `0`
store 1; `-2` stores -2. -/
theorem handleAddMealServings_spec_witness :
    handleAddMealServings "" = 1 ∧ handleAddMealServings "0" = 1 ∧
      handleAddMealServings "-2" = -2 :=
  ⟨(handleAddMealServings_spec "").1 (Or.inl (by decide)),
   (handleAddMealServings_spec "0").1 (Or.inr (by decide)),
   (handleAddMealServings_spec "-2").2 (-2) (by decide) (by decide)⟩

end MealPlanner

